import Mathlib

/-!
Shallow embedding of the crawl-and-fetch pipeline of
`src/scrape_tagesschau.py`, together with theorems settling the
behavioural claims about it.

Network effects are modelled by oracles: a listing fetch is a function
from (date string, page index) to either an exception message or a pair
of (link records, monthly-summary flag); an article fetch is a function
from attempt index to success/failure.  File effects are modelled as
explicit lists of written records; printing is modelled as a list of
emitted message strings.  Loops whose termination depends on the remote
service are given explicit fuel and return `Option`, `none` meaning the
fuel ran out before the loop finished.
-/

namespace Tagesschau

/-- A calendar date (year, month, day), as used by `datetime.date`. -/
structure Date where
  year : Nat
  month : Nat
  day : Nat
deriving DecidableEq, Repr

/-- Zero-pad a number to two digits, as in `strftime` fields `%m`/`%d`. -/
def pad2 (n : Nat) : String :=
  (if n < 10 then "0" else "") ++ toString n

/-- `day.strftime("%Y-%m-%d")`: the ISO date string used as listing key. -/
def Date.iso (d : Date) : String :=
  toString d.year ++ "-" ++ pad2 d.month ++ "-" ++ pad2 d.day

/-- The record built per teaser by `get_links_from_page` (a dict in the
source); `link` is the relative URL path and the record's identity. -/
structure LinkRecord where
  date_api : String
  page_api : Nat
  date : String
  headline : String
  short_headline : String
  short_text : String
  link : String
deriving DecidableEq, Repr

/-- Result of one listing fetch `get_links_from_page(date, page)`: either
an exception message, or the parsed link records together with the
monthly-summary flag. -/
abbrev FetchResult := Except String (List LinkRecord × Bool)

/-- A listing-fetch oracle: what the network returns for each
(date string, page index) query. -/
abbrev FetchOracle := String → Nat → FetchResult

/-- The message printed by `process_month` when a listing fetch raises:
`print(f"Fehler bei {date_str} Seite {page}: {e}")`. -/
def errMsg (dateStr : String) (page : Nat) (e : String) : String :=
  "Fehler bei " ++ dateStr ++ " Seite " ++ toString page ++ ": " ++ e

/-- The inner `while True` pagination loop of `process_month` for one day:
fetch (date, page); on exception print and stop; if no links stop;
otherwise collect the links, OR the summary flag into the detector, and
continue with page+1.  Returns
`(daily_links, final page, summary_detected, fetch trace, prints)`;
`none` if fuel ran out.  Note the loop neither resets `page` nor is it
reset by the caller between days. -/
def paginateDay (fetch : FetchOracle) (dateStr : String) :
    Nat → Nat → Bool →
    Option (List LinkRecord × Nat × Bool × List (String × Nat) × List String)
  | 0, _, _ => none
  | fuel + 1, page, sd =>
    match fetch dateStr page with
    | .error e =>
        some ([], page, sd, [(dateStr, page)], [errMsg dateStr page e])
    | .ok (links, ms) =>
        if links.isEmpty then
          some ([], page, sd, [(dateStr, page)], [])
        else
          match paginateDay fetch dateStr fuel (page + 1) (sd || ms) with
          | none => none
          | some (rest, p', sd', tr, pr) =>
              some (links ++ rest, p', sd', (dateStr, page) :: tr, pr)

/-- The `for day in days` loop of `process_month`: at the top of each
iteration, if the summary flag is set, break (skip all remaining days);
otherwise paginate the day carrying the shared `page` counter, and extend
the month's links.  Returns
`(month_links, final page, summary_detected, fetch trace, prints)`. -/
def processDays (fetch : FetchOracle) (fuel : Nat) :
    List Date → Nat → Bool →
    Option (List LinkRecord × Nat × Bool × List (String × Nat) × List String)
  | [], page, sd => some ([], page, sd, [], [])
  | d :: ds, page, sd =>
    if sd then some ([], page, sd, [], [])
    else
      match paginateDay fetch d.iso fuel page sd with
      | none => none
      | some (dl, p1, sd1, tr1, pr1) =>
        match processDays fetch fuel ds p1 sd1 with
        | none => none
        | some (rest, p', sd', tr, pr) =>
            some (dl ++ rest, p', sd', tr1 ++ tr, pr1 ++ pr)

/-- `f"{month:02d}.{year}"`, the label kept in the `active_months` list. -/
def monthLabel (year month : Nat) : String :=
  pad2 month ++ "." ++ toString year

/-- Observable outcome of one `process_month` call. -/
structure PMOut where
  /-- `.ok month_links` on normal return; `.error` when the bulk append
  to the links file raises and the exception propagates. -/
  result : Except String (List LinkRecord)
  /-- The shared `active_months` list after the call. -/
  active : List String
  /-- The records appended to the links file by this call. -/
  written : List LinkRecord
  /-- The (date string, page) listing fetches issued, in order. -/
  trace : List (String × Nat)
  /-- The messages printed (transient error reports). -/
  prints : List String
deriving Repr

/-- `process_month(year, month, days, links_filename, page=1)`: push the
month label onto `active_months`, process the days, bulk-append the
month's links (modelled by `writeOk`: when the append raises, the
exception propagates and the label is not removed), then remove the
label.  `active0` is the `active_months` list on entry. -/
def process_month (fetch : FetchOracle) (writeOk : Bool)
    (year month : Nat) (days : List Date) (active0 : List String)
    (fuel : Nat) (page : Nat := 1) : Option PMOut :=
  let label := monthLabel year month
  let active1 := active0 ++ [label]
  match processDays fetch fuel days page false with
  | none => none
  | some (monthLinks, _, _, tr, pr) =>
    if monthLinks.isEmpty then
      some ⟨.ok monthLinks, active1.erase label, [], tr, pr⟩
    else if writeOk then
      some ⟨.ok monthLinks, active1.erase label, monthLinks, tr, pr⟩
    else
      some ⟨.error "write failed", active1, [], tr, pr⟩

/-! ### RetryingFetcher: `fetch_article_with_retry` -/

/-- The `while retries < max_retries` loop of `fetch_article_with_retry`,
with `fuel = max_retries - retries`.  `outcome i` tells whether the
attempt made with `retries = i` succeeds (in the source, `fetch_article`
returning a result rather than `None`/raising).  Returns
`(success, number of attempts made, total time slept)`; on each failed
attempt the code sleeps `10 + 2 ** retries` and increments `retries`. -/
def retryAux (outcome : Nat → Bool) : Nat → Nat → Bool × Nat × Nat
  | 0, _ => (false, 0, 0)
  | fuel + 1, retries =>
    if outcome retries then (true, 1, 0)
    else
      let r := retryAux outcome fuel (retries + 1)
      (r.1, r.2.1 + 1, r.2.2 + (10 + 2 ^ retries))

/-- `fetch_article_with_retry(session, entry, max_retries=5)`: run the
retry loop starting from `retries = 0`. -/
def fetch_article_with_retry (outcome : Nat → Bool) (max_retries : Nat := 5) :
    Bool × Nat × Nat :=
  retryAux outcome max_retries 0

/-- The wait bound claimed by the spec: Σ (10 + 2^i) for i in
1..maxRetries-1. -/
def claimedWaitBound (m : Nat) : Nat :=
  ∑ i in Finset.range (m - 1), (10 + 2 ^ (i + 1))

/-! ### BatchFetchOrchestrator: `fetch_all_articles` -/

/-- Python list slice `l[i:j]` for `0 ≤ i ≤ j` (clamping at the end). -/
def pySlice (l : List α) (i j : Nat) : List α :=
  (l.drop i).take (j - i)

/-- The batch actually built at offset `i`:
`entries[i : i + batch_size if i + batch_size < len(entries) else len(entries) - 1]`.
Note the `len(entries) - 1` upper bound taken whenever
`i + batch_size ≥ len(entries)`, i.e. in the final batch. -/
def batchAt (entries : List α) (batch_size i : Nat) : List α :=
  pySlice entries i
    (if i + batch_size < entries.length then i + batch_size else entries.length - 1)

/-- The `for future in asyncio.as_completed(tasks)` loop of one batch:
collect each settled result, but `break` as soon as a task yields no
result (terminal failure).  Completion order is modelled as submission
order.  `oracle e` is the settled value of entry `e`'s
`fetch_article_with_retry` task (`none` = terminal failure). -/
def collectResults (oracle : α → Option β) : List α → List β
  | [] => []
  | e :: es =>
    match oracle e with
    | none => []
    | some r => r :: collectResults oracle es

/-- `range(0, N, B)` for `B > 0`: the batch start offsets. -/
def batchOffsets (N B : Nat) : List Nat :=
  (List.range ((N + B - 1) / B)).map (· * B)

/-- The batch loop of `fetch_all_articles`: for each offset `i`, build the
batch, collect its results into the shared `results` accumulator (never
reset between batches), and record the checkpoint artifact
`save_articles(results, f"cache_{i}.csv")` as the pair
`(i, current results)`.  Returns `(final results, checkpoints)`. -/
def fetchBatches (oracle : α → Option β) (entries : List α) (batch_size : Nat) :
    List Nat → List β → List β × List (Nat × List β)
  | [], results => (results, [])
  | i :: is, results =>
    let results' := results ++ collectResults oracle (batchAt entries batch_size i)
    let rest := fetchBatches oracle entries batch_size is results'
    (rest.1, (i, results') :: rest.2)

/-- `fetch_all_articles(entries, concurrency)`: batch size 3000 in the
source, kept as a parameter (defaulting to 3000) so that statements can
quantify over it.  The concurrency limit only caps in-flight requests and
does not affect which results are collected, so it is not modelled.
Returns the function's return value together with the list of checkpoint
artifacts written. -/
def fetch_all_articles (oracle : α → Option β) (entries : List α)
    (batch_size : Nat := 3000) : List β × List (Nat × List β) :=
  fetchBatches oracle entries batch_size
    (batchOffsets entries.length batch_size) []

/-! ### LinkStore: the links file, `process_month`'s append and `load_links` -/

/-- The links file as parsed lines: `none` for a line `json.loads` fails
on, `some r` for a well-formed line holding record `r`.  (The file itself
is `Option`al: `none` models a filename that does not exist on disk.) -/
abbrev LinksFile := List (Option LinkRecord)

/-- The bulk append `process_month` performs: one `json.dumps` line per
record at the end of the file.  Freshly serialized records parse back to
themselves. -/
def appendLinks (file : LinksFile) (records : List LinkRecord) : LinksFile :=
  file ++ records.map some

/-- Python `s.startswith(pre)`, computed on the underlying character
list (extensionally the same test as `String.startsWith`). -/
def strStartsWith (s pre : String) : Bool :=
  pre.data.isPrefixOf s.data

/-- `load_links(links_filename)`: if the file does not exist return `[]`;
otherwise parse each line, skip malformed lines, and keep exactly the
entries whose `link` does not start with `"http"`. -/
def load_links (file : Option LinksFile) : List LinkRecord :=
  match file with
  | none => []
  | some lines =>
    lines.filterMap (fun pl =>
      pl.bind (fun e => if strStartsWith e.link "http" then none else some e))

/-! ### Reprocessing entry point: `collect_links_with_error` -/

/-- Gregorian leap-year test. -/
def isLeap (y : Nat) : Bool :=
  (y % 4 == 0 && y % 100 != 0) || (y % 400 == 0)

/-- Number of days in a month, as `datetime.date` arithmetic yields. -/
def daysInMonth (year month : Nat) : Nat :=
  if month == 2 then (if isLeap year then 29 else 28)
  else if month == 4 || month == 6 || month == 9 || month == 11 then 30
  else 31

/-- `current_date + datetime.timedelta(days=1)`. -/
def Date.next (d : Date) : Date :=
  if d.day < daysInMonth d.year d.month then ⟨d.year, d.month, d.day + 1⟩
  else if d.month < 12 then ⟨d.year, d.month + 1, 1⟩
  else ⟨d.year + 1, 1, 1⟩

/-- The day-collection loop of `collect_links_with_error`: starting from
the parsed `start_date`, repeatedly append `current_date` and step one
day, exiting only when `current_date.month > start_date.month`.  `fuel`
bounds the number of iterations; `none` means the loop had not exited
after `fuel` iterations. -/
def collectErrorDaysAux (startMonth : Nat) :
    Nat → Date → List Date → Option (List Date)
  | 0, _, _ => none
  | fuel + 1, cur, acc =>
    let acc' := acc ++ [cur]
    let nxt := Date.next cur
    if startMonth < nxt.month then some acc'
    else collectErrorDaysAux startMonth fuel nxt acc'

/-- The days one error-ledger line `(startDate, resumePage)` leads
`collect_links_with_error` to process (before grouping by month). -/
def errorEntryDays (start : Date) (fuel : Nat) : Option (List Date) :=
  collectErrorDaysAux start.month fuel start []

/-! ## Theorems -/

/-- C9: for a filename that does not exist on disk (`os.path.exists`
false), `load_links` returns the empty list and raises nothing. -/
theorem C9_load_links_missing_file : load_links none = [] := rfl

/-- Freshly appended well-formed lines whose links do not start with
`"http"` all survive the load filter, in order. -/
lemma filterMap_map_some_of_relative (rs : List LinkRecord)
    (h : ∀ r ∈ rs, strStartsWith r.link "http" = false) :
    (rs.map some).filterMap
      (fun pl => pl.bind
        (fun e => if strStartsWith e.link "http" then none else some e)) = rs := by
  induction rs with
  | nil => rfl
  | cons r rs ih =>
    have hr : strStartsWith r.link "http" = false := h r (List.mem_cons_self r rs)
    have ih' := ih (fun x hx => h x (List.mem_cons_of_mem r hx))
    simp [List.filterMap_cons, hr, ih']

/-- C4: appending link records whose `link` fields are relative paths
(not starting with `"http"`) to an initially empty link log and then
loading pending links returns exactly the appended records, in order. -/
theorem C4_append_load_round_trip (records : List LinkRecord)
    (h : ∀ r ∈ records, strStartsWith r.link "http" = false) :
    load_links (some (appendLinks [] records)) = records := by
  simpa [load_links, appendLinks] using filterMap_map_some_of_relative records h

/-- A concrete record with a relative link, as `get_links_from_page`
discovers them. -/
def c4rec : LinkRecord :=
  ⟨"2023-10-01", 1, "01.10.2023", "h4", "sh4", "st4", "/inland/test-101.html"⟩

/-- Witness for C4 at a concrete one-record log. -/
theorem C4_witness :
    (∀ r ∈ [c4rec], strStartsWith r.link "http" = false) ∧
      load_links (some (appendLinks [] [c4rec])) = [c4rec] :=
  ⟨by decide, C4_append_load_round_trip [c4rec] (by decide)⟩

/-- One discovered record on day 1 page 1 of the C1 scenario. -/
def c1rec : LinkRecord :=
  ⟨"2023-10-01", 1, "01.10.2023", "h1", "sh1", "st1", "/inland/a-101.html"⟩

/-- Listing oracle for the C1 scenario: day `2023-10-01` has exactly one
listing page (page 1, one record, no summary); every other query yields
an empty page. -/
def c1fetch : FetchOracle := fun d p =>
  if d == "2023-10-01" && p == 1 then .ok ([c1rec], false) else .ok ([], false)

/-- C1: the claim says each day's pagination restarts from page 1.  In
the code the `page` counter of `process_month` is shared across the days
of the month and never reset, so after day `2023-10-01` exhausts at page
2, day `2023-10-02`'s single listing query is issued for page 2 — page 1
of that day is never fetched.  This theorem evaluates the month worker on
that input and exhibits the trace. -/
theorem C1_page_counter_not_reset :
    (process_month c1fetch true 2023 10 [⟨2023, 10, 1⟩, ⟨2023, 10, 2⟩] [] 3).map
        PMOut.trace
      = some [("2023-10-01", 1), ("2023-10-01", 2), ("2023-10-02", 2)] := by
  rfl

/-- Listing oracle whose every fetch raises. -/
def c6fetch : FetchOracle := fun _ _ => .error "boom"

/-- C6 counterexample: on a listing-fetch exception the code only prints
`Fehler bei {date} Seite {page}: {e}` and breaks; the complete run
persists nothing — no ErrorRecord reaches any ledger (the `written`
output, the only file write of `process_month`, is empty). -/
theorem C6_no_error_persisted :
    (process_month c6fetch true 2023 10 [⟨2023, 10, 1⟩] [] 1).map
        (fun o => (o.written, o.prints))
      = some ([], [errMsg "2023-10-01" 1 "boom"]) := by
  rfl

/-- C6 amended: a listing-fetch exception at (date, page) aborts that
day's pagination immediately and its only effect is the transient printed
message containing the date, the page index and the error message;
nothing is persisted. -/
theorem C6_error_reported_transiently (fetch : FetchOracle) (dateStr : String)
    (fuel page : Nat) (sd : Bool) (e : String) (hfuel : 0 < fuel)
    (he : fetch dateStr page = .error e) :
    paginateDay fetch dateStr fuel page sd =
      some ([], page, sd, [(dateStr, page)], [errMsg dateStr page e]) := by
  cases fuel with
  | zero => exact absurd hfuel (by simp)
  | succ n => simp [paginateDay, he]

/-- Witness for the amended C6 at a concrete raising fetch. -/
theorem C6_witness :
    0 < 1 ∧ c6fetch "2023-10-01" 1 = .error "boom" ∧
      paginateDay c6fetch "2023-10-01" 1 1 false =
        some ([], 1, false, [("2023-10-01", 1)], [errMsg "2023-10-01" 1 "boom"]) :=
  ⟨Nat.zero_lt_one, rfl,
    C6_error_reported_transiently c6fetch "2023-10-01" 1 1 false "boom"
      Nat.zero_lt_one rfl⟩

/-- One discovered record for the C8 scenario. -/
def c8rec : LinkRecord :=
  ⟨"2023-10-01", 1, "01.10.2023", "h8", "sh8", "st8", "/ausland/b-202.html"⟩

/-- Listing oracle for the C8 scenario: page 1 of any day yields one
record, later pages are empty. -/
def c8fetch : FetchOracle := fun _ p =>
  if p == 1 then .ok ([c8rec], false) else .ok ([], false)

/-- C8 counterexample: when the bulk append to the links file raises,
`process_month` terminates exceptionally before reaching
`active_months.remove`, so the month label is still in the active set —
the claim's "removed ... when it terminates by raising" fails. -/
theorem C8_label_left_on_raise :
    (process_month c8fetch false 2023 10 [⟨2023, 10, 1⟩] [] 2).map
        (fun o => (o.result, o.active))
      = some (.error "write failed", [monthLabel 2023 10]) := by
  rfl

/-- C8 amended: the month label is removed from the active set when
`process_month` completes normally (restoring the entry state when the
label was not already present), but when the bulk append raises, the
exception propagates before the removal and the label remains in the
active set. -/
theorem C8_active_removed_only_on_success (fetch : FetchOracle)
    (writeOk : Bool) (year month : Nat) (days : List Date)
    (active0 : List String) (fuel page : Nat) (out : PMOut)
    (hni : monthLabel year month ∉ active0)
    (h : process_month fetch writeOk year month days active0 fuel page = some out) :
    (∀ l, out.result = .ok l → out.active = active0) ∧
    (∀ msg, out.result = .error msg →
      out.active = active0 ++ [monthLabel year month]) := by
  unfold process_month at h
  cases hpd : processDays fetch fuel days page false with
  | none => rw [hpd] at h; exact absurd h (by simp)
  | some res =>
    obtain ⟨ml, p', sd', tr, pr⟩ := res
    rw [hpd] at h
    simp only at h
    split_ifs at h with hml hwo <;> cases Option.some.inj h
    · refine ⟨fun l _ => ?_, fun msg hmsg => ?_⟩
      · show (active0 ++ [monthLabel year month]).erase (monthLabel year month)
            = active0
        rw [List.erase_append_right _ hni, List.erase_cons_head, List.append_nil]
      · exact absurd hmsg (by simp)
    · refine ⟨fun l _ => ?_, fun msg hmsg => ?_⟩
      · show (active0 ++ [monthLabel year month]).erase (monthLabel year month)
            = active0
        rw [List.erase_append_right _ hni, List.erase_cons_head, List.append_nil]
      · exact absurd hmsg (by simp)
    · exact ⟨fun l hl => absurd hl (by simp), fun msg _ => rfl⟩

/-- The outcome of the concrete raising run used to witness C8. -/
def c8out : PMOut :=
  ⟨.error "write failed", [monthLabel 2023 10], [],
    [("2023-10-01", 1), ("2023-10-01", 2)], []⟩

/-- Witness for the amended C8: a concrete raising run, after which the
label remains in the active set. -/
theorem C8_witness :
    monthLabel 2023 10 ∉ ([] : List String) ∧
      process_month c8fetch false 2023 10 [⟨2023, 10, 1⟩] [] 2 = some c8out ∧
      c8out.active = [] ++ [monthLabel 2023 10] :=
  ⟨by simp, rfl,
    (C8_active_removed_only_on_success c8fetch false 2023 10
      [⟨2023, 10, 1⟩] [] 2 1 c8out (by simp) rfl).2 "write failed" rfl⟩

/-- Once the summary flag is set, the day loop breaks at once: no fetch
is issued and nothing is emitted, whatever days remain. -/
lemma processDays_of_summary (fetch : FetchOracle) (fuel : Nat)
    (days : List Date) (page : Nat) :
    processDays fetch fuel days page true = some ([], page, true, [], []) := by
  cases days <;> simp [processDays]

/-- If the day loop on `days1` ends with the summary flag set, appending
further days changes nothing: the run on `days1 ++ days2` is literally
the run on `days1`. -/
lemma processDays_append_of_summary (fetch : FetchOracle) (fuel : Nat)
    (days2 days1 : List Date) :
    ∀ (sd : Bool) (page : Nat) (l : List LinkRecord) (p' : Nat)
      (tr : List (String × Nat)) (pr : List String),
      processDays fetch fuel days1 page sd = some (l, p', true, tr, pr) →
      processDays fetch fuel (days1 ++ days2) page sd =
        some (l, p', true, tr, pr) := by
  induction days1 with
  | nil =>
    intro sd page l p' tr pr h
    simp only [processDays, Option.some.injEq, Prod.mk.injEq] at h
    obtain ⟨rfl, rfl, rfl, rfl, rfl⟩ := h
    simpa using processDays_of_summary fetch fuel days2 page
  | cons d ds ih =>
    intro sd page l p' tr pr h
    rw [List.cons_append]
    by_cases hsd : sd = true
    · subst hsd
      rw [processDays_of_summary] at h
      simp only [Option.some.injEq, Prod.mk.injEq] at h
      obtain ⟨rfl, rfl, -, rfl, rfl⟩ := h
      exact processDays_of_summary fetch fuel _ page
    · rw [Bool.not_eq_true] at hsd
      subst hsd
      simp only [processDays, Bool.false_eq_true, if_false] at h ⊢
      cases hpg : paginateDay fetch d.iso fuel page false with
      | none => rw [hpg] at h; exact Option.noConfusion h
      | some q =>
        obtain ⟨dl, p1, sd1, tr1, pr1⟩ := q
        rw [hpg] at h
        dsimp only at h ⊢
        cases hrec : processDays fetch fuel ds p1 sd1 with
        | none => rw [hrec] at h; exact Option.noConfusion h
        | some r =>
          obtain ⟨rest, p2, sd2, tr2, pr2⟩ := r
          rw [hrec] at h
          simp only [Option.some.injEq, Prod.mk.injEq] at h
          obtain ⟨rfl, rfl, rfl, rfl, rfl⟩ := h
          rw [ih sd1 p1 rest p2 tr2 pr2 hrec]

/-- C2: once the monthly-summary signal has been observed while
processing the days `days1`, the month worker run on `days1 ++ days2`
coincides with the run on `days1` alone: no listing fetch is issued, and
no LinkRecord emitted, for any of the later days `days2`. -/
theorem C2_summary_monotonic_early_stop (fetch : FetchOracle)
    (writeOk : Bool) (year month : Nat) (days1 days2 : List Date)
    (active0 : List String) (fuel page : Nat) (l : List LinkRecord)
    (p' : Nat) (tr : List (String × Nat)) (pr : List String)
    (h : processDays fetch fuel days1 page false = some (l, p', true, tr, pr)) :
    process_month fetch writeOk year month (days1 ++ days2) active0 fuel page =
      process_month fetch writeOk year month days1 active0 fuel page := by
  unfold process_month
  rw [h, processDays_append_of_summary fetch fuel days2 days1 false page
    l p' tr pr h]

/-- The record discovered on the summary day of the C2 scenario. -/
def c2rec : LinkRecord :=
  ⟨"2023-10-15", 1, "15.10.2023", "h2", "sh2", "st2", "/inland/c-303.html"⟩

/-- Listing oracle for the C2 scenario: page 1 of `2023-10-15` yields one
record together with the monthly-summary signal; everything else is an
empty page. -/
def c2fetch : FetchOracle := fun d p =>
  if d == "2023-10-15" && p == 1 then .ok ([c2rec], true) else .ok ([], false)

/-- Witness for C2: after the summary fires on `2023-10-15`, adding
`2023-10-16` to the month leaves the run unchanged. -/
theorem C2_witness :
    processDays c2fetch 2 [⟨2023, 10, 15⟩] 1 false =
        some ([c2rec], 2, true, [("2023-10-15", 1), ("2023-10-15", 2)], []) ∧
      process_month c2fetch true 2023 10
          ([⟨2023, 10, 15⟩] ++ [⟨2023, 10, 16⟩]) [] 2 1 =
        process_month c2fetch true 2023 10 [⟨2023, 10, 15⟩] [] 2 1 :=
  ⟨rfl,
    C2_summary_monotonic_early_stop c2fetch true 2023 10 [⟨2023, 10, 15⟩]
      [⟨2023, 10, 16⟩] [] 2 1 [c2rec] 2
      [("2023-10-15", 1), ("2023-10-15", 2)] [] rfl⟩

/-- If the attempts with `retries = r, …, r + fuel - 1` fail and the one
with `retries = r + fuel` succeeds, the retry loop succeeds after exactly
`fuel + 1` attempts having slept `Σ (10 + 2^(r+i)) for i < fuel`. -/
lemma retryAux_last_success (outcome : Nat → Bool) :
    ∀ (fuel r : Nat),
      (∀ i, r ≤ i → i < r + fuel → outcome i = false) →
      outcome (r + fuel) = true →
      retryAux outcome (fuel + 1) r =
        (true, fuel + 1, ∑ i in Finset.range fuel, (10 + 2 ^ (r + i))) := by
  intro fuel
  induction fuel with
  | zero =>
    intro r hf hs
    simp only [Nat.add_zero] at hs
    simp [retryAux, hs]
  | succ n ih =>
    intro r hf hs
    have hr : outcome r = false := hf r le_rfl (by omega)
    have hs' : outcome ((r + 1) + n) = true := by
      have he : (r + 1) + n = r + (n + 1) := by omega
      rw [he]; exact hs
    have hf' : ∀ i, r + 1 ≤ i → i < (r + 1) + n → outcome i = false :=
      fun i h1 h2 => hf i (by omega) (by omega)
    have hrec := ih (r + 1) hf' hs'
    show (if outcome r = true then _ else _) = _
    rw [hr]
    simp only [Bool.false_eq_true, if_false, hrec]
    refine Prod.ext rfl (Prod.ext rfl ?_)
    show (∑ i in Finset.range n, (10 + 2 ^ (r + 1 + i))) + (10 + 2 ^ r) =
      ∑ i in Finset.range (n + 1), (10 + 2 ^ (r + i))
    rw [Finset.sum_range_succ']
    congr 1
    exact Finset.sum_congr rfl fun i _ => by
      have he : r + 1 + i = r + (i + 1) := by omega
      rw [he]

/-- C5 amended: for an entry whose first `maxRetries - 1` attempts fail
and whose last attempt succeeds, `fetch_article_with_retry` returns
success after exactly `maxRetries` attempts, and the cumulative wait is
Σ (10 + 2^i) for i in 0 .. maxRetries-2 (the source sleeps
`10 + 2 ** retries` with `retries` counting from 0). -/
theorem C5_success_after_max_attempts (outcome : Nat → Bool) (m : Nat)
    (hm : 1 ≤ m) (hfail : ∀ i, i < m - 1 → outcome i = false)
    (hsucc : outcome (m - 1) = true) :
    fetch_article_with_retry outcome m =
      (true, m, ∑ i in Finset.range (m - 1), (10 + 2 ^ i)) := by
  obtain ⟨n, rfl⟩ : ∃ n, m = n + 1 := ⟨m - 1, by omega⟩
  simp only [Nat.add_sub_cancel] at hfail hsucc ⊢
  have h := retryAux_last_success outcome n 0
    (fun i _ h2 => hfail i (by omega)) (by simpa using hsucc)
  unfold fetch_article_with_retry
  rw [h]
  simp

/-- C5 counterexample: with `maxRetries = 5` and an entry failing on the
first four attempts and succeeding on the fifth, the code returns success
after 5 attempts with a cumulative wait of
(10+2^0)+(10+2^1)+(10+2^2)+(10+2^3) = 55 time units — strictly below the
Σ(10+2^i), i in 1..4 = 70 units the claim asserts as a lower bound. -/
theorem C5_wait_below_claimed_bound :
    fetch_article_with_retry (fun i => i == 4) 5 = (true, 5, 55) ∧
      55 < claimedWaitBound 5 := by
  constructor
  · rfl
  · decide

/-- Witness for the amended C5 at `maxRetries = 5`. -/
theorem C5_witness :
    1 ≤ 5 ∧ (∀ i, i < 5 - 1 → ((fun j => j == 4) i : Bool) = false) ∧
      ((fun j => j == 4) (5 - 1) : Bool) = true ∧
      fetch_article_with_retry (fun j => j == 4) 5 =
        (true, 5, ∑ i in Finset.range (5 - 1), (10 + 2 ^ i)) :=
  ⟨by norm_num, by decide, by decide,
    C5_success_after_max_attempts (fun j => j == 4) 5 (by norm_num)
      (by decide) (by decide)⟩

/-- Stepping one day never yields a month index above 12. -/
lemma next_month_le_12 (d : Date) (h : d.month ≤ 12) :
    (Date.next d).month ≤ 12 := by
  unfold Date.next
  split_ifs with h1 h2
  · exact h
  · dsimp only; omega
  · dsimp only; omega

/-- The day-collection loop of `collect_links_with_error` never exits
when the start month is December: no later date has a month index above
12, so `current_date.month > start_date.month` never holds. -/
lemma collectErrorDaysAux_december (fuel : Nat) :
    ∀ (cur : Date) (acc : List Date), cur.month ≤ 12 →
      collectErrorDaysAux 12 fuel cur acc = none := by
  induction fuel with
  | zero => intro cur acc _; rfl
  | succ n ih =>
    intro cur acc h
    have h2 := next_month_le_12 cur h
    show (if 12 < (Date.next cur).month then _ else _) = _
    rw [if_neg (by omega)]
    exact ih _ _ h2

/-- C7: for the error-ledger pair (2023-12-15, any resume page) the
reprocessing entry point does not terminate: however many loop iterations
(`fuel`) are allowed, the day-collection loop of
`collect_links_with_error` has not exited — contradicting the claim that
every start month, December included, is processed to the end of the
month. -/
theorem C7_december_start_never_terminates (fuel : Nat) :
    errorEntryDays ⟨2023, 12, 15⟩ fuel = none :=
  collectErrorDaysAux_december fuel ⟨2023, 12, 15⟩ [] (by norm_num)

/-- C3: the claim says every input entry, including the last one, is
dispatched in some batch and the artifacts' union misses only terminal
failures.  With 4 entries, batch size 3 and every fetch succeeding, the
final batch is the slice `entries[3 : len(entries)-1] = entries[3:3] = []`
— entry "d" is never dispatched — so the run returns only ["a","b","c"]
and both checkpoint artifacts (correctly ⌈4/3⌉ = 2 of them) miss "d"
although it did not fail. -/
theorem C3_last_entry_never_dispatched :
    fetch_all_articles (fun (e : String) => some e) ["a", "b", "c", "d"] 3 =
      (["a", "b", "c"], [(0, ["a", "b", "c"]), (3, ["a", "b", "c"])]) := by
  rfl

/-- The checkpoint written at position `k` of the offset list holds the
accumulator as of entry `k`: everything collected for the batches at
offsets `is.take (k+1)`, appended after what was accumulated before. -/
lemma fetchBatches_content (oracle : α → Option β) (entries : List α)
    (B : Nat) :
    ∀ (is : List Nat) (acc : List β) (k : Nat) (c : Nat × List β),
      ((fetchBatches oracle entries B is acc).2)[k]? = some c →
      c.2 = acc ++ ((is.take (k + 1)).map
        (fun i => collectResults oracle (batchAt entries B i))).flatten := by
  intro is
  induction is with
  | nil => intro acc k c h; exact Option.noConfusion h
  | cons i is ih =>
    intro acc k c h
    cases k with
    | zero =>
      simp only [fetchBatches, List.getElem?_cons_zero, Option.some.injEq] at h
      subst h
      simp
    | succ k =>
      simp only [fetchBatches, List.getElem?_cons_succ] at h
      have hc := ih (acc ++ collectResults oracle (batchAt entries B i)) k c h
      rw [hc]
      simp [List.append_assoc]

/-- C10: each checkpoint artifact holds the successful results
accumulated over all batches up to and including its own (the results
list is never reset between batches), so every earlier artifact's
contents is a prefix — in particular a subset — of every later one. -/
theorem C10_checkpoints_accumulate (oracle : α → Option β)
    (entries : List α) (B j k : Nat) (hjk : j ≤ k) (cj ck : Nat × List β)
    (hj : ((fetch_all_articles oracle entries B).2)[j]? = some cj)
    (hk : ((fetch_all_articles oracle entries B).2)[k]? = some ck) :
    ck.2 = (((batchOffsets entries.length B).take (k + 1)).map
        (fun i => collectResults oracle (batchAt entries B i))).flatten ∧
      cj.2 <+: ck.2 := by
  have hck := fetchBatches_content oracle entries B _ [] k ck hk
  have hcj := fetchBatches_content oracle entries B _ [] j cj hj
  simp only [List.nil_append] at hck hcj
  refine ⟨hck, ?_⟩
  rw [hcj, hck]
  have htake : (batchOffsets entries.length B).take (j + 1) <+:
      (batchOffsets entries.length B).take (k + 1) :=
    List.take_prefix_take_left _ (by omega)
  obtain ⟨t, ht⟩ := htake.map
    (fun i => collectResults oracle (batchAt entries B i))
  exact ⟨t.flatten, by rw [← ht, List.flatten_append]⟩

/-- Witness for C10: the two checkpoints of the concrete 4-entry,
batch-size-3 run, with `j = 0 ≤ k = 1`. -/
theorem C10_witness :
    (0 : Nat) ≤ 1 ∧
      ((fetch_all_articles (fun (e : String) => some e)
          ["a", "b", "c", "d"] 3).2)[0]? = some (0, ["a", "b", "c"]) ∧
      ((fetch_all_articles (fun (e : String) => some e)
          ["a", "b", "c", "d"] 3).2)[1]? = some (3, ["a", "b", "c"]) ∧
      (((3, ["a", "b", "c"]) : Nat × List String).2 =
          (((batchOffsets (["a", "b", "c", "d"] : List String).length 3).take 2).map
            (fun i => collectResults (fun (e : String) => some e)
              (batchAt ["a", "b", "c", "d"] 3 i))).flatten ∧
        ((0, ["a", "b", "c"]) : Nat × List String).2 <+:
          ((3, ["a", "b", "c"]) : Nat × List String).2) :=
  ⟨by norm_num, rfl, rfl,
    C10_checkpoints_accumulate (fun (e : String) => some e)
      ["a", "b", "c", "d"] 3 0 1 (by norm_num)
      (0, ["a", "b", "c"]) (3, ["a", "b", "c"]) rfl rfl⟩

end Tagesschau
